import Mathlib

/-!
Verification of the mls-rs repository's proposal-bundle, proposal-filter,
cipher-suite, storage-provider and proposal-reference behaviour, as a shallow
embedding of the Rust sources into Lean.

The embedding models the crate with all optional features enabled
(`psk`, `external_commit`, `custom_proposal`), which is the full data model of
`aws-mls/src/group/proposal_filter/bundle.rs`.
-/

namespace MlsRs

/-- `LeafIndex` from `aws-mls`: an index of a leaf in the ratchet tree.
Treated opaquely by the bundle operations. -/
structure LeafIndex where
  data : Nat
deriving DecidableEq

/-- Modelled from the spec: the sender identity attached to a proposal.
Its internal structure is opaque to every bundle operation. -/
structure Sender where
  data : Nat
deriving DecidableEq

/-- `ProposalRef`: the identifier of a by-reference proposal. Its internal
structure (a 16-byte hash reference) is opaque to the bundle operations. -/
structure ProposalRef where
  data : List Nat
deriving DecidableEq

/-- Payload of an Add proposal; contents opaque to the bundle operations. -/
structure AddProposal where
  data : Nat
deriving DecidableEq

/-- Payload of an Update proposal; contents opaque to the bundle operations. -/
structure UpdateProposal where
  data : Nat
deriving DecidableEq

/-- Payload of a Remove proposal; contents opaque to the bundle operations. -/
structure RemoveProposal where
  data : Nat
deriving DecidableEq

/-- Payload of a PreSharedKey proposal; contents opaque to the bundle
operations. -/
structure PreSharedKeyProposal where
  data : Nat
deriving DecidableEq

/-- Payload of a ReInit proposal; contents opaque to the bundle operations. -/
structure ReInitProposal where
  data : Nat
deriving DecidableEq

/-- Payload of an ExternalInit proposal; contents opaque to the bundle
operations. -/
structure ExternalInit where
  data : Nat
deriving DecidableEq

/-- An extension list, the payload of a GroupContextExtensions proposal;
contents opaque to the bundle operations. -/
structure ExtensionList where
  data : Nat
deriving DecidableEq

/-- Payload of a custom proposal; contents opaque to the bundle operations. -/
structure CustomProposal where
  data : Nat
deriving DecidableEq

/-- The `Proposal` enum of `aws-mls`: one variant per MLS proposal type,
plus custom proposals (`custom_proposal` feature). -/
inductive Proposal where
  | add (p : AddProposal)
  | update (p : UpdateProposal)
  | remove (p : RemoveProposal)
  | psk (p : PreSharedKeyProposal)
  | reInit (p : ReInitProposal)
  | externalInit (p : ExternalInit)
  | groupContextExtensions (p : ExtensionList)
  | custom (p : CustomProposal)
deriving DecidableEq

/-- `ProposalSource` from `bundle.rs`: how a proposal entered the bundle.
`CustomRule b` records a proposal produced by a custom proposal rule,
with `b` true when it was originally by value. -/
inductive ProposalSource where
  | ByValue
  | ByReference (r : ProposalRef)
  | CustomRule (byValue : Bool)
deriving DecidableEq

/-- `ProposalInfo<T>` from `bundle.rs`: a proposal together with its sender
and source. -/
structure ProposalInfo (T : Type) where
  proposal : T
  sender : Sender
  source : ProposalSource
deriving DecidableEq

/-- `ProposalInfo::map` from `bundle.rs`. -/
def ProposalInfo.map {T U : Type} (info : ProposalInfo T) (f : T → U) : ProposalInfo U :=
  { proposal := f info.proposal, sender := info.sender, source := info.source }

/-- `ProposalOrRef` from `aws-mls`: a proposal embedded by value, or the
reference naming a by-reference proposal. -/
inductive ProposalOrRef where
  | Proposal (p : Proposal)
  | Reference (r : ProposalRef)
deriving DecidableEq

/-- `ProposalBundle` from `bundle.rs`: one bucket (vector) per proposal type,
all features enabled, plus the `update_senders` list. -/
structure ProposalBundle where
  additions : List (ProposalInfo AddProposal) := []
  updates : List (ProposalInfo UpdateProposal) := []
  update_senders : List LeafIndex := []
  removals : List (ProposalInfo RemoveProposal) := []
  psks : List (ProposalInfo PreSharedKeyProposal) := []
  reinitializations : List (ProposalInfo ReInitProposal) := []
  external_initializations : List (ProposalInfo ExternalInit) := []
  group_context_extensions : List (ProposalInfo ExtensionList) := []
  custom_proposals : List (ProposalInfo CustomProposal) := []
deriving DecidableEq

/-- `ProposalBundle::default()`: the empty bundle. -/
def ProposalBundle.default : ProposalBundle := {}

/-- `ProposalBundle::add` from `bundle.rs`: push the proposal, with its sender
and source, onto the bucket matching its variant. -/
def ProposalBundle.add (b : ProposalBundle) (proposal : Proposal) (sender : Sender)
    (source : ProposalSource) : ProposalBundle :=
  match proposal with
  | .add p => { b with additions := b.additions ++ [⟨p, sender, source⟩] }
  | .update p => { b with updates := b.updates ++ [⟨p, sender, source⟩] }
  | .remove p => { b with removals := b.removals ++ [⟨p, sender, source⟩] }
  | .psk p => { b with psks := b.psks ++ [⟨p, sender, source⟩] }
  | .reInit p => { b with reinitializations := b.reinitializations ++ [⟨p, sender, source⟩] }
  | .externalInit p =>
      { b with external_initializations := b.external_initializations ++ [⟨p, sender, source⟩] }
  | .groupContextExtensions p =>
      { b with group_context_extensions := b.group_context_extensions ++ [⟨p, sender, source⟩] }
  | .custom p => { b with custom_proposals := b.custom_proposals ++ [⟨p, sender, source⟩] }

/-- `ProposalBundle::length` from `bundle.rs`: the total number of proposals,
summed over every bucket (`update_senders` is not a proposal bucket). -/
def ProposalBundle.length (b : ProposalBundle) : Nat :=
  b.psks.length + b.external_initializations.length + b.custom_proposals.length
    + b.additions.length + b.updates.length + b.removals.length
    + b.reinitializations.length + b.group_context_extensions.length

/-- `FromIterator<ProposalInfo<Proposal>> for ProposalBundle`: fold `add`
over the items, starting from the default bundle. -/
def ProposalBundle.from_iter (items : List (ProposalInfo Proposal)) : ProposalBundle :=
  items.foldl (fun bundle p => bundle.add p.proposal p.sender p.source) ProposalBundle.default

/-- `ProposalBundle::into_proposals` from `bundle.rs` (with the
`custom_proposal` feature): all proposals of the bundle re-wrapped in the
`Proposal` enum, bucket by bucket in the order of the source. -/
def ProposalBundle.into_proposals (b : ProposalBundle) : List (ProposalInfo Proposal) :=
  b.custom_proposals.map (fun p => p.map Proposal.custom)
    ++ b.external_initializations.map (fun p => p.map Proposal.externalInit)
    ++ b.psks.map (fun p => p.map Proposal.psk)
    ++ b.additions.map (fun p => p.map Proposal.add)
    ++ b.updates.map (fun p => p.map Proposal.update)
    ++ b.removals.map (fun p => p.map Proposal.remove)
    ++ b.reinitializations.map (fun p => p.map Proposal.reInit)
    ++ b.group_context_extensions.map (fun p => p.map Proposal.groupContextExtensions)

/-- The per-proposal case of `into_proposals_or_refs` (with the
`custom_proposal` feature): by-value proposals map to
`ProposalOrRef::Proposal`, by-reference ones to `ProposalOrRef::Reference`,
and custom-rule-sourced ones to `None`. -/
def proposalOrRefOfInfo (p : ProposalInfo Proposal) : Option ProposalOrRef :=
  match p.source with
  | .ByValue => some (ProposalOrRef.Proposal p.proposal)
  | .ByReference r => some (ProposalOrRef.Reference r)
  | .CustomRule _ => none

/-- `ProposalBundle::into_proposals_or_refs` from `bundle.rs` (with the
`custom_proposal` feature): `filter_map` of `proposalOrRefOfInfo` over
`into_proposals`. -/
def ProposalBundle.into_proposals_or_refs (b : ProposalBundle) : List ProposalOrRef :=
  b.into_proposals.filterMap proposalOrRefOfInfo

/-- `Vec::remove(index)`: remove the element at `index`, panicking
(modelled by `none`) when `index` is out of bounds. -/
def vecRemove {α : Type} (l : List α) (index : Nat) : Option (List α) :=
  if index < l.length then some (l.eraseIdx index) else none

/-- `<AddProposal as Proposable>::remove` from the `impl_proposable` macro:
call `Vec::remove` on the `additions` bucket only when `index` is in
bounds. `none` models a panic (which the guard prevents). -/
def AddProposal.remove (bundle : ProposalBundle) (index : Nat) : Option ProposalBundle :=
  if index < bundle.additions.length then
    (vecRemove bundle.additions index).map (fun l => { bundle with additions := l })
  else some bundle

/-- `<UpdateProposal as Proposable>::remove` from the `impl_proposable`
macro, acting on the `updates` bucket. -/
def UpdateProposal.remove (bundle : ProposalBundle) (index : Nat) : Option ProposalBundle :=
  if index < bundle.updates.length then
    (vecRemove bundle.updates index).map (fun l => { bundle with updates := l })
  else some bundle

/-- `<RemoveProposal as Proposable>::remove` from the `impl_proposable`
macro, acting on the `removals` bucket. -/
def RemoveProposal.remove (bundle : ProposalBundle) (index : Nat) : Option ProposalBundle :=
  if index < bundle.removals.length then
    (vecRemove bundle.removals index).map (fun l => { bundle with removals := l })
  else some bundle

/-- `<PreSharedKeyProposal as Proposable>::remove` from the
`impl_proposable` macro, acting on the `psks` bucket. -/
def PreSharedKeyProposal.remove (bundle : ProposalBundle) (index : Nat) : Option ProposalBundle :=
  if index < bundle.psks.length then
    (vecRemove bundle.psks index).map (fun l => { bundle with psks := l })
  else some bundle

/-- `<ReInitProposal as Proposable>::remove` from the `impl_proposable`
macro, acting on the `reinitializations` bucket. -/
def ReInitProposal.remove (bundle : ProposalBundle) (index : Nat) : Option ProposalBundle :=
  if index < bundle.reinitializations.length then
    (vecRemove bundle.reinitializations index).map
      (fun l => { bundle with reinitializations := l })
  else some bundle

/-- `<ExternalInit as Proposable>::remove` from the `impl_proposable`
macro, acting on the `external_initializations` bucket. -/
def ExternalInit.remove (bundle : ProposalBundle) (index : Nat) : Option ProposalBundle :=
  if index < bundle.external_initializations.length then
    (vecRemove bundle.external_initializations index).map
      (fun l => { bundle with external_initializations := l })
  else some bundle

/-- `<ExtensionList as Proposable>::remove` from the `impl_proposable`
macro, acting on the `group_context_extensions` bucket. -/
def ExtensionList.remove (bundle : ProposalBundle) (index : Nat) : Option ProposalBundle :=
  if index < bundle.group_context_extensions.length then
    (vecRemove bundle.group_context_extensions index).map
      (fun l => { bundle with group_context_extensions := l })
  else some bundle

/-- `Vec::retain` driven by the closure of
`ProposalBundle::retain_by_type`: visit the elements front to back, keep
those where `f` returns `Ok(true)`, drop those with `Ok(false)` or `Err`,
and latch the first error `f` produces. -/
def retainLoop {α E : Type} (f : α → Except E Bool) : List α → List α × Option E
  | [] => ([], none)
  | p :: l =>
    match f p with
    | .ok true => ((retainLoop f l).1.cons p, (retainLoop f l).2)
    | .ok false => retainLoop f l
    | .error e => ((retainLoop f l).1, some e)

/-- `ProposalBundle::retain_by_type::<AddProposal>` from `bundle.rs`: retain
the `additions` bucket with the error-latching closure, returning the
mutated bundle and the latched result. -/
def ProposalBundle.retain_by_type_add {E : Type} (b : ProposalBundle)
    (f : ProposalInfo AddProposal → Except E Bool) : ProposalBundle × Option E :=
  let r := retainLoop f b.additions
  ({ b with additions := r.1 }, r.2)

/-- `ProposalBundle::retain_by_type::<UpdateProposal>` from `bundle.rs`. -/
def ProposalBundle.retain_by_type_update {E : Type} (b : ProposalBundle)
    (f : ProposalInfo UpdateProposal → Except E Bool) : ProposalBundle × Option E :=
  let r := retainLoop f b.updates
  ({ b with updates := r.1 }, r.2)

/-- `ProposalBundle::retain_by_type::<RemoveProposal>` from `bundle.rs`. -/
def ProposalBundle.retain_by_type_remove {E : Type} (b : ProposalBundle)
    (f : ProposalInfo RemoveProposal → Except E Bool) : ProposalBundle × Option E :=
  let r := retainLoop f b.removals
  ({ b with removals := r.1 }, r.2)

/-- `ProposalBundle::retain_by_type::<PreSharedKeyProposal>` from
`bundle.rs`. -/
def ProposalBundle.retain_by_type_psk {E : Type} (b : ProposalBundle)
    (f : ProposalInfo PreSharedKeyProposal → Except E Bool) : ProposalBundle × Option E :=
  let r := retainLoop f b.psks
  ({ b with psks := r.1 }, r.2)

/-- `ProposalBundle::retain_by_type::<ReInitProposal>` from `bundle.rs`. -/
def ProposalBundle.retain_by_type_reinit {E : Type} (b : ProposalBundle)
    (f : ProposalInfo ReInitProposal → Except E Bool) : ProposalBundle × Option E :=
  let r := retainLoop f b.reinitializations
  ({ b with reinitializations := r.1 }, r.2)

/-- `ProposalBundle::retain_by_type::<ExternalInit>` from `bundle.rs`. -/
def ProposalBundle.retain_by_type_external {E : Type} (b : ProposalBundle)
    (f : ProposalInfo ExternalInit → Except E Bool) : ProposalBundle × Option E :=
  let r := retainLoop f b.external_initializations
  ({ b with external_initializations := r.1 }, r.2)

/-- `ProposalBundle::retain_by_type::<ExtensionList>` from `bundle.rs`. -/
def ProposalBundle.retain_by_type_gce {E : Type} (b : ProposalBundle)
    (f : ProposalInfo ExtensionList → Except E Bool) : ProposalBundle × Option E :=
  let r := retainLoop f b.group_context_extensions
  ({ b with group_context_extensions := r.1 }, r.2)

/-- The `?` operator applied to one `retain_by_type` step inside
`ProposalBundle::retain`. -/
def stepRes {E : Type} (x : ProposalBundle × Option E)
    (k : ProposalBundle → Except E ProposalBundle) : Except E ProposalBundle :=
  match x.2 with
  | some e => .error e
  | none => k x.1

/-- `ProposalBundle::retain` from `bundle.rs`: run `retain_by_type` on each
standard bucket in source order (custom proposals are not visited), viewing
each proposal through the `BorrowedProposal` enum, and short-circuit on the
first bucket that reports an error. -/
def ProposalBundle.retain {E : Type} (b : ProposalBundle)
    (f : ProposalInfo Proposal → Except E Bool) : Except E ProposalBundle :=
  stepRes (b.retain_by_type_add (fun p => f (p.map Proposal.add))) fun b =>
  stepRes (b.retain_by_type_update (fun p => f (p.map Proposal.update))) fun b =>
  stepRes (b.retain_by_type_remove (fun p => f (p.map Proposal.remove))) fun b =>
  stepRes (b.retain_by_type_psk (fun p => f (p.map Proposal.psk))) fun b =>
  stepRes (b.retain_by_type_reinit (fun p => f (p.map Proposal.reInit))) fun b =>
  stepRes (b.retain_by_type_external (fun p => f (p.map Proposal.externalInit))) fun b =>
  stepRes (b.retain_by_type_gce (fun p => f (p.map Proposal.groupContextExtensions))) fun b =>
  .ok b

/-- The Add-bucket projection of one proposal-info triple: `some` exactly
when the proposal is an Add, keeping sender and source. -/
def asAddInfo (p : ProposalInfo Proposal) : Option (ProposalInfo AddProposal) :=
  match p.proposal with
  | .add a => some ⟨a, p.sender, p.source⟩
  | _ => none

/-- The Update-bucket projection of one proposal-info triple. -/
def asUpdateInfo (p : ProposalInfo Proposal) : Option (ProposalInfo UpdateProposal) :=
  match p.proposal with
  | .update a => some ⟨a, p.sender, p.source⟩
  | _ => none

/-- The Remove-bucket projection of one proposal-info triple. -/
def asRemoveInfo (p : ProposalInfo Proposal) : Option (ProposalInfo RemoveProposal) :=
  match p.proposal with
  | .remove a => some ⟨a, p.sender, p.source⟩
  | _ => none

/-- The Psk-bucket projection of one proposal-info triple. -/
def asPskInfo (p : ProposalInfo Proposal) : Option (ProposalInfo PreSharedKeyProposal) :=
  match p.proposal with
  | .psk a => some ⟨a, p.sender, p.source⟩
  | _ => none

/-- The ReInit-bucket projection of one proposal-info triple. -/
def asReInitInfo (p : ProposalInfo Proposal) : Option (ProposalInfo ReInitProposal) :=
  match p.proposal with
  | .reInit a => some ⟨a, p.sender, p.source⟩
  | _ => none

/-- The ExternalInit-bucket projection of one proposal-info triple. -/
def asExternalInitInfo (p : ProposalInfo Proposal) : Option (ProposalInfo ExternalInit) :=
  match p.proposal with
  | .externalInit a => some ⟨a, p.sender, p.source⟩
  | _ => none

/-- The GroupContextExtensions-bucket projection of one proposal-info
triple. -/
def asGceInfo (p : ProposalInfo Proposal) : Option (ProposalInfo ExtensionList) :=
  match p.proposal with
  | .groupContextExtensions a => some ⟨a, p.sender, p.source⟩
  | _ => none

/-- The Custom-bucket projection of one proposal-info triple. -/
def asCustomInfo (p : ProposalInfo Proposal) : Option (ProposalInfo CustomProposal) :=
  match p.proposal with
  | .custom a => some ⟨a, p.sender, p.source⟩
  | _ => none

/-- Whether a proposal source is `CustomRule` (produced by a custom
proposal rule). -/
def isCustomRuleSource : ProposalSource → Bool
  | .CustomRule _ => true
  | _ => false

/-- Whether a fallible keep-result is `Ok(true)`. -/
def okTrue {E : Type} : Except E Bool → Bool
  | .ok true => true
  | _ => false

/-- The error carried by a fallible keep-result, when there is one. -/
def errOf {E : Type} : Except E Bool → Option E
  | .error e => some e
  | _ => none

/-- `ProposalFilterContext` from `filter.rs`. -/
structure ProposalFilterContext where
  committer : Sender
  proposer : Sender

/-- `SimpleProposalFilter::filter` from `filter.rs`: retain every proposal
on which the user function succeeds; a failing user function makes the
closure return `Ok(false)` (`map_or(false, |_| true)`), so the proposal is
dropped and no error is ever reported. -/
def simpleProposalFilter_filter {E : Type} (committer : Sender)
    (f : ProposalFilterContext → Proposal → Except E Unit)
    (proposals : ProposalBundle) : Except E ProposalBundle :=
  proposals.retain (fun proposal =>
    let context : ProposalFilterContext := ⟨committer, proposal.sender⟩
    .ok (match f context proposal.proposal with
      | .ok _ => true
      | .error _ => false))

end MlsRs

namespace MlsCore

/-- `CipherSuite` from `aws-mls-core/src/crypto/cipher_suite.rs`: a wrapper
around a `u16` identifier. `val` models the single unnamed field; values are
in `[0, 2^16)`. -/
structure CipherSuite where
  val : Nat
deriving DecidableEq

/-- `From<u16> for CipherSuite`. -/
def CipherSuite.fromU16 (value : Nat) : CipherSuite := ⟨value⟩

/-- `CipherSuite::new`: a ciphersuite from a raw value. -/
def CipherSuite.new (value : Nat) : CipherSuite := ⟨value⟩

/-- `CipherSuite::raw_value`. -/
def CipherSuite.raw_value (c : CipherSuite) : Nat := c.val

/-- `CipherSuite::CURVE25519_AES128`. -/
def CipherSuite.CURVE25519_AES128 : CipherSuite := ⟨1⟩

/-- `CipherSuite::P256_AES128`. -/
def CipherSuite.P256_AES128 : CipherSuite := ⟨2⟩

/-- `CipherSuite::CURVE25519_CHACHA`. -/
def CipherSuite.CURVE25519_CHACHA : CipherSuite := ⟨3⟩

/-- `CipherSuite::CURVE448_AES256`. -/
def CipherSuite.CURVE448_AES256 : CipherSuite := ⟨4⟩

/-- `CipherSuite::P521_AES256`. -/
def CipherSuite.P521_AES256 : CipherSuite := ⟨5⟩

/-- `CipherSuite::CURVE448_CHACHA`. -/
def CipherSuite.CURVE448_CHACHA : CipherSuite := ⟨6⟩

/-- `CipherSuite::P384_AES256`. -/
def CipherSuite.P384_AES256 : CipherSuite := ⟨7⟩

/-- `CipherSuite::all`: `(1..=7).map(CipherSuite)`. -/
def CipherSuite.all : List CipherSuite := (List.range' 1 7).map CipherSuite.mk

end MlsCore

namespace MlsRsProviderWeb

/-- `DEFAULT_EPOCH_RETENTION_LIMIT` from `mls-rs-provider-web/src/lib.rs`. -/
def DEFAULT_EPOCH_RETENTION_LIMIT : Nat := 3

/-- `WebLocalStateStorage` from `mls-rs-provider-web/src/lib.rs`. -/
structure WebLocalStateStorage where
  max_epoch_retention : Nat
deriving DecidableEq

/-- `WebLocalStateStorage::new`: construct the storage with the default
epoch retention limit. -/
def WebLocalStateStorage.new : WebLocalStateStorage :=
  { max_epoch_retention := DEFAULT_EPOCH_RETENTION_LIMIT }

/-- `WebLocalStateStorage::with_max_epoch_retention`. -/
def WebLocalStateStorage.with_max_epoch_retention (_s : WebLocalStateStorage)
    (max_epoch_retention : Nat) : WebLocalStateStorage :=
  { max_epoch_retention := max_epoch_retention }

end MlsRsProviderWeb

namespace SqliteProvider

/-- `KeyPackageData` stored by the SQLite provider; contents opaque to the
storage operations (rows hold its `bincode` serialization). -/
structure KeyPackageData where
  data : Nat
deriving DecidableEq

/-- `SqLiteDataStorageError` from `aws-mls-provider-sqlite`; payloads of the
variants (the underlying engine errors) are not modelled. -/
inductive SqLiteDataStorageError where
  | SqlEngineError
  | DataConversionError
deriving DecidableEq

/-- Modelled from the spec: the contents of the SQLite `key_package` table,
one row per key-package id. The schema (`CREATE TABLE`) that makes `id` the
unique key of the table is not under src/. -/
abbrev KeyPackageTable : Type := List (List Nat × KeyPackageData)

/-- Modelled from the spec: `SqLiteKeyPackageStore::insert` runs
`INSERT INTO key_package (id, data) VALUES (?,?)`; since `id` is the unique
key of the table (schema not under src/), inserting an id already present
violates the constraint and the SQL engine reports an error, leaving the
table unchanged ("duplicate insert returns an error"). -/
def SqLiteKeyPackageStore.insert (table : KeyPackageTable) (id : List Nat)
    (key_package : KeyPackageData) : Except SqLiteDataStorageError KeyPackageTable :=
  if table.any (fun row => row.1 = id) then
    .error SqLiteDataStorageError.SqlEngineError
  else
    .ok (table ++ [(id, key_package)])

/-- `SqLiteKeyPackageStore::get`: `SELECT data FROM key_package WHERE id = ?`,
returning the stored entry when the id is present. -/
def SqLiteKeyPackageStore.get (table : KeyPackageTable) (id : List Nat) :
    Option KeyPackageData :=
  (table.find? (fun row => row.1 = id)).map (fun row => row.2)

/-- `SqLiteKeyPackageStore::delete`: `DELETE FROM key_package where id = ?`. -/
def SqLiteKeyPackageStore.delete (table : KeyPackageTable) (id : List Nat) :
    KeyPackageTable :=
  table.filter (fun row => row.1 ≠ id)

end SqliteProvider

namespace MlsLegacy

/-- `GroupError` from the legacy `src` crate; its variants are opaque to
`to_reference`. -/
structure GroupError where
  data : Nat
deriving DecidableEq

/-- `HashReference` from the legacy `src` crate: the byte string of a hash
reference. -/
abbrev HashReference : Type := List Nat

/-- `ProposalRef` from `src/group/proposal.rs`: a wrapper around a
`HashReference`. -/
structure ProposalRef where
  ref : HashReference
deriving DecidableEq

/-- `KeyPackage` from the legacy `src` crate; opaque to `to_reference`. -/
structure KeyPackage where
  data : Nat
deriving DecidableEq

/-- `KeyPackageRef` from the legacy `src` crate; opaque to `to_reference`. -/
structure KeyPackageRef where
  data : Nat
deriving DecidableEq

/-- `ExtensionList` from the legacy `src` crate; opaque to `to_reference`. -/
structure ExtensionList where
  data : Nat
deriving DecidableEq

/-- `AddProposal` from `src/group/proposal.rs`. -/
structure AddProposal where
  key_package : KeyPackage
deriving DecidableEq

/-- `UpdateProposal` from `src/group/proposal.rs`. -/
structure UpdateProposal where
  key_package : KeyPackage
deriving DecidableEq

/-- `RemoveProposal` from `src/group/proposal.rs`. -/
structure RemoveProposal where
  to_remove : KeyPackageRef
deriving DecidableEq

/-- `Proposal` from `src/group/proposal.rs`: the legacy crate supports four
proposal variants. -/
inductive Proposal where
  | add (p : AddProposal)
  | update (p : UpdateProposal)
  | remove (p : RemoveProposal)
  | groupContextExtensions (p : ExtensionList)
deriving DecidableEq

/-- Modelled from the spec: `HashReference::from_value` (not under src/)
computes the HPKE hash of the cipher suite over the input bytes and
truncates it to 16 bytes. The hash function itself is a parameter. -/
def HashReference.from_value (hash : MlsCore.CipherSuite → List Nat → List Nat)
    (value : List Nat) (cipher_suite : MlsCore.CipherSuite) : HashReference :=
  (hash cipher_suite value).take 16

/-- `Proposal::to_reference` from `src/group/proposal.rs`: TLS-serialize the
proposal and wrap its hash reference in `ProposalRef`. The TLS serialization
(`tls_serialize_detached`, derived code not under src/) is the fallible
parameter `ser`; `hash` is the cipher suite's HPKE hash. -/
def Proposal.to_reference (hash : MlsCore.CipherSuite → List Nat → List Nat)
    (ser : Proposal → Except GroupError (List Nat)) (p : Proposal)
    (cipher_suite : MlsCore.CipherSuite) : Except GroupError ProposalRef :=
  (ser p).map (fun bytes => ⟨HashReference.from_value hash bytes cipher_suite⟩)

end MlsLegacy

namespace MlsRs

/-- A bundle holding a single custom-rule-sourced proposal, built through
`add`. -/
def customRuleBundle : ProposalBundle :=
  ProposalBundle.default.add (Proposal.custom ⟨0⟩) ⟨0⟩ (ProposalSource.CustomRule true)

/-- A bundle holding one by-value Add proposal and one by-reference Remove
proposal. -/
def mixedSourceBundle : ProposalBundle :=
  (ProposalBundle.default.add (Proposal.add ⟨0⟩) ⟨0⟩ ProposalSource.ByValue).add
    (Proposal.remove ⟨1⟩) ⟨2⟩ (ProposalSource.ByReference ⟨[9]⟩)

/-- The proposal-info triple of the by-value Add proposal of
`mixedSourceBundle`. -/
def byValueAddInfo : ProposalInfo Proposal := ⟨Proposal.add ⟨0⟩, ⟨0⟩, ProposalSource.ByValue⟩

/-- A bundle whose only proposal is a by-value Add proposal. -/
def byValueAddBundle : ProposalBundle :=
  ProposalBundle.default.add (Proposal.add ⟨0⟩) ⟨0⟩ ProposalSource.ByValue

end MlsRs

namespace MlsLegacy

/-- A concrete stand-in for the cipher suite's HPKE hash: pad the input with
sixteen zero bytes. -/
def padHash : MlsCore.CipherSuite → List Nat → List Nat :=
  fun _ value => value ++ List.replicate 16 0

/-- A concrete stand-in for `tls_serialize_detached`: every proposal
serializes to the single byte 5. -/
def constSer : Proposal → Except GroupError (List Nat) :=
  fun _ => Except.ok [5]

end MlsLegacy

namespace SqliteProvider

/-- A table holding one key package under id `[1]`. -/
def oneRowTable : KeyPackageTable := [([1], ⟨7⟩)]

end SqliteProvider

namespace MlsRs

lemma foldl_add_additions (l : List (ProposalInfo Proposal)) (b : ProposalBundle) :
    (l.foldl (fun bundle p => bundle.add p.proposal p.sender p.source) b).additions
      = b.additions ++ l.filterMap asAddInfo := by
  induction l generalizing b with
  | nil => simp
  | cons p l ih =>
    rw [List.foldl_cons, ih]
    cases hp : p.proposal <;> simp [ProposalBundle.add, asAddInfo, hp]

lemma foldl_add_updates (l : List (ProposalInfo Proposal)) (b : ProposalBundle) :
    (l.foldl (fun bundle p => bundle.add p.proposal p.sender p.source) b).updates
      = b.updates ++ l.filterMap asUpdateInfo := by
  induction l generalizing b with
  | nil => simp
  | cons p l ih =>
    rw [List.foldl_cons, ih]
    cases hp : p.proposal <;> simp [ProposalBundle.add, asUpdateInfo, hp]

lemma foldl_add_removals (l : List (ProposalInfo Proposal)) (b : ProposalBundle) :
    (l.foldl (fun bundle p => bundle.add p.proposal p.sender p.source) b).removals
      = b.removals ++ l.filterMap asRemoveInfo := by
  induction l generalizing b with
  | nil => simp
  | cons p l ih =>
    rw [List.foldl_cons, ih]
    cases hp : p.proposal <;> simp [ProposalBundle.add, asRemoveInfo, hp]

lemma foldl_add_psks (l : List (ProposalInfo Proposal)) (b : ProposalBundle) :
    (l.foldl (fun bundle p => bundle.add p.proposal p.sender p.source) b).psks
      = b.psks ++ l.filterMap asPskInfo := by
  induction l generalizing b with
  | nil => simp
  | cons p l ih =>
    rw [List.foldl_cons, ih]
    cases hp : p.proposal <;> simp [ProposalBundle.add, asPskInfo, hp]

lemma foldl_add_reinits (l : List (ProposalInfo Proposal)) (b : ProposalBundle) :
    (l.foldl (fun bundle p => bundle.add p.proposal p.sender p.source) b).reinitializations
      = b.reinitializations ++ l.filterMap asReInitInfo := by
  induction l generalizing b with
  | nil => simp
  | cons p l ih =>
    rw [List.foldl_cons, ih]
    cases hp : p.proposal <;> simp [ProposalBundle.add, asReInitInfo, hp]

lemma foldl_add_externals (l : List (ProposalInfo Proposal)) (b : ProposalBundle) :
    (l.foldl (fun bundle p => bundle.add p.proposal p.sender p.source) b).external_initializations
      = b.external_initializations ++ l.filterMap asExternalInitInfo := by
  induction l generalizing b with
  | nil => simp
  | cons p l ih =>
    rw [List.foldl_cons, ih]
    cases hp : p.proposal <;> simp [ProposalBundle.add, asExternalInitInfo, hp]

lemma foldl_add_gces (l : List (ProposalInfo Proposal)) (b : ProposalBundle) :
    (l.foldl (fun bundle p => bundle.add p.proposal p.sender p.source) b).group_context_extensions
      = b.group_context_extensions ++ l.filterMap asGceInfo := by
  induction l generalizing b with
  | nil => simp
  | cons p l ih =>
    rw [List.foldl_cons, ih]
    cases hp : p.proposal <;> simp [ProposalBundle.add, asGceInfo, hp]

lemma foldl_add_customs (l : List (ProposalInfo Proposal)) (b : ProposalBundle) :
    (l.foldl (fun bundle p => bundle.add p.proposal p.sender p.source) b).custom_proposals
      = b.custom_proposals ++ l.filterMap asCustomInfo := by
  induction l generalizing b with
  | nil => simp
  | cons p l ih =>
    rw [List.foldl_cons, ih]
    cases hp : p.proposal <;> simp [ProposalBundle.add, asCustomInfo, hp]

lemma add_length (b : ProposalBundle) (p : Proposal) (s : Sender) (src : ProposalSource) :
    (b.add p s src).length = b.length + 1 := by
  cases p <;> simp [ProposalBundle.add, ProposalBundle.length] <;> omega

lemma foldl_add_length (l : List (ProposalInfo Proposal)) (b : ProposalBundle) :
    (l.foldl (fun bundle p => bundle.add p.proposal p.sender p.source) b).length
      = b.length + l.length := by
  induction l generalizing b with
  | nil => simp
  | cons p l ih =>
    rw [List.foldl_cons, ih, add_length]
    simp only [List.length_cons]
    omega

/-- C1: every sequence of (proposal, sender, source) triples collected into a
`ProposalBundle` by folding `add` (the `FromIterator` implementation) stores
each proposal in the bucket matching its variant; each bucket holds exactly
the proposals of its variant, in insertion order, and `length` equals the
total number of proposals added. -/
theorem from_iter_buckets_and_length (l : List (ProposalInfo Proposal)) :
    (ProposalBundle.from_iter l).additions = l.filterMap asAddInfo ∧
    (ProposalBundle.from_iter l).updates = l.filterMap asUpdateInfo ∧
    (ProposalBundle.from_iter l).removals = l.filterMap asRemoveInfo ∧
    (ProposalBundle.from_iter l).psks = l.filterMap asPskInfo ∧
    (ProposalBundle.from_iter l).reinitializations = l.filterMap asReInitInfo ∧
    (ProposalBundle.from_iter l).external_initializations = l.filterMap asExternalInitInfo ∧
    (ProposalBundle.from_iter l).group_context_extensions = l.filterMap asGceInfo ∧
    (ProposalBundle.from_iter l).custom_proposals = l.filterMap asCustomInfo ∧
    (ProposalBundle.from_iter l).length = l.length := by
  unfold ProposalBundle.from_iter
  refine ⟨?_, ?_, ?_, ?_, ?_, ?_, ?_, ?_, ?_⟩
  · rw [foldl_add_additions]; rfl
  · rw [foldl_add_updates]; rfl
  · rw [foldl_add_removals]; rfl
  · rw [foldl_add_psks]; rfl
  · rw [foldl_add_reinits]; rfl
  · rw [foldl_add_externals]; rfl
  · rw [foldl_add_gces]; rfl
  · rw [foldl_add_customs]; rfl
  · rw [foldl_add_length]
    simp [ProposalBundle.default, ProposalBundle.length]

end MlsRs

namespace MlsRs

lemma length_filterMap_orRef (l : List (ProposalInfo Proposal)) :
    (l.filterMap proposalOrRefOfInfo).length
      = (l.filter (fun p => !isCustomRuleSource p.source)).length := by
  induction l with
  | nil => rfl
  | cons p l ih =>
    cases hs : p.source <;>
      simp [List.filterMap_cons, List.filter_cons, proposalOrRefOfInfo,
        isCustomRuleSource, hs, ih]

/-- C2 counterexample: a bundle holding one proposal whose source is
`CustomRule` has one proposal, yet `into_proposals_or_refs` returns no
entries — the proposal is omitted from the result, contrary to the claim. -/
theorem into_proposals_or_refs_cex :
    customRuleBundle.length = 1 ∧ customRuleBundle.into_proposals.length = 1 ∧
    customRuleBundle.into_proposals_or_refs = [] := by decide

/-- C2 (amended): `into_proposals_or_refs` turns each proposal with source
`ByValue` into `ProposalOrRef::Proposal` holding that proposal and each
proposal with source `ByReference(r)` into `ProposalOrRef::Reference(r)`;
proposals whose source is `CustomRule` are omitted, so the result has one
entry per proposal whose source is not `CustomRule`. -/
theorem into_proposals_or_refs_amended (b : ProposalBundle) :
    (∀ p ∈ b.into_proposals,
      (p.source = ProposalSource.ByValue →
        ProposalOrRef.Proposal p.proposal ∈ b.into_proposals_or_refs) ∧
      (∀ r, p.source = ProposalSource.ByReference r →
        ProposalOrRef.Reference r ∈ b.into_proposals_or_refs)) ∧
    b.into_proposals_or_refs.length
      = (b.into_proposals.filter (fun p => !isCustomRuleSource p.source)).length := by
  refine ⟨fun p hp => ⟨fun hs => ?_, fun r hs => ?_⟩, ?_⟩
  · exact List.mem_filterMap.mpr ⟨p, hp, by simp [proposalOrRefOfInfo, hs]⟩
  · exact List.mem_filterMap.mpr ⟨p, hp, by simp [proposalOrRefOfInfo, hs]⟩
  · exact length_filterMap_orRef _

/-- Witness for the amended C2, at `mixedSourceBundle`: its by-value Add
proposal appears by value and its by-reference Remove proposal appears as
its reference. -/
theorem into_proposals_or_refs_amended_witness :
    ProposalOrRef.Proposal byValueAddInfo.proposal ∈ mixedSourceBundle.into_proposals_or_refs ∧
    ProposalOrRef.Reference ⟨[9]⟩ ∈ mixedSourceBundle.into_proposals_or_refs := by
  refine ⟨((into_proposals_or_refs_amended mixedSourceBundle).1 byValueAddInfo
    (by decide)).1 (by decide), ?_⟩
  exact ((into_proposals_or_refs_amended mixedSourceBundle).1
    ⟨Proposal.remove ⟨1⟩, ⟨2⟩, ProposalSource.ByReference ⟨[9]⟩⟩ (by decide)).2 ⟨[9]⟩ (by decide)

/-- C9: for every Proposable proposal type, `ProposalBundle::remove(i)`
returns without panicking; an out-of-bounds `i` leaves the bundle entirely
unchanged, and an in-bounds `i` removes exactly the i-th element of that
type's bucket while leaving every other bucket unchanged. -/
theorem remove_no_panic_and_exact (b : ProposalBundle) (i : Nat) :
    AddProposal.remove b i = some (if i < b.additions.length then
      { b with additions := b.additions.eraseIdx i } else b) ∧
    UpdateProposal.remove b i = some (if i < b.updates.length then
      { b with updates := b.updates.eraseIdx i } else b) ∧
    RemoveProposal.remove b i = some (if i < b.removals.length then
      { b with removals := b.removals.eraseIdx i } else b) ∧
    PreSharedKeyProposal.remove b i = some (if i < b.psks.length then
      { b with psks := b.psks.eraseIdx i } else b) ∧
    ReInitProposal.remove b i = some (if i < b.reinitializations.length then
      { b with reinitializations := b.reinitializations.eraseIdx i } else b) ∧
    ExternalInit.remove b i = some (if i < b.external_initializations.length then
      { b with external_initializations := b.external_initializations.eraseIdx i } else b) ∧
    ExtensionList.remove b i = some (if i < b.group_context_extensions.length then
      { b with group_context_extensions := b.group_context_extensions.eraseIdx i } else b) := by
  refine ⟨?_, ?_, ?_, ?_, ?_, ?_, ?_⟩
  · by_cases h : i < b.additions.length <;> simp [AddProposal.remove, vecRemove, h]
  · by_cases h : i < b.updates.length <;> simp [UpdateProposal.remove, vecRemove, h]
  · by_cases h : i < b.removals.length <;> simp [RemoveProposal.remove, vecRemove, h]
  · by_cases h : i < b.psks.length <;> simp [PreSharedKeyProposal.remove, vecRemove, h]
  · by_cases h : i < b.reinitializations.length <;>
      simp [ReInitProposal.remove, vecRemove, h]
  · by_cases h : i < b.external_initializations.length <;>
      simp [ExternalInit.remove, vecRemove, h]
  · by_cases h : i < b.group_context_extensions.length <;>
      simp [ExtensionList.remove, vecRemove, h]

end MlsRs

namespace MlsRs

lemma retainLoop_spec {α E : Type} (f : α → Except E Bool) (l : List α) :
    retainLoop f l
      = (l.filter (fun p => okTrue (f p)), l.findSome? (fun p => errOf (f p))) := by
  induction l with
  | nil => rfl
  | cons p l ih =>
    cases hf : f p with
    | ok b =>
      cases b <;>
        simp [retainLoop, hf, ih, List.filter_cons, List.findSome?_cons, okTrue, errOf]
    | error e =>
      simp [retainLoop, hf, ih, List.filter_cons, List.findSome?_cons, okTrue, errOf]

lemma findSome_errOf_none_iff {α E : Type} (f : α → Except E Bool) (l : List α) :
    (l.findSome? fun p => errOf (f p)) = none ↔ ∀ p ∈ l, ∃ k, f p = .ok k := by
  rw [List.findSome?_eq_none_iff]
  exact forall_congr' fun p => imp_congr_right fun _ => by
    cases hf : f p <;> simp [errOf, hf]

/-- C10: for each Proposable type, `retain_by_type(f)` keeps, in insertion
order, exactly the bucket elements on which `f` returned `Ok(true)`, removes
those with `Ok(false)` or `Err` while leaving every other bucket unchanged,
reports the first error `f` produced, and returns Ok if and only if `f`
returned Ok on every element of the bucket. -/
theorem retain_by_type_spec {E : Type} (b : ProposalBundle)
    (fa : ProposalInfo AddProposal → Except E Bool)
    (fu : ProposalInfo UpdateProposal → Except E Bool)
    (fr : ProposalInfo RemoveProposal → Except E Bool)
    (fp : ProposalInfo PreSharedKeyProposal → Except E Bool)
    (fi : ProposalInfo ReInitProposal → Except E Bool)
    (fe : ProposalInfo ExternalInit → Except E Bool)
    (fg : ProposalInfo ExtensionList → Except E Bool) :
    (b.retain_by_type_add fa
        = ({ b with additions := b.additions.filter fun p => okTrue (fa p) },
            b.additions.findSome? fun p => errOf (fa p)) ∧
      ((b.retain_by_type_add fa).2 = none ↔ ∀ p ∈ b.additions, ∃ k, fa p = .ok k)) ∧
    (b.retain_by_type_update fu
        = ({ b with updates := b.updates.filter fun p => okTrue (fu p) },
            b.updates.findSome? fun p => errOf (fu p)) ∧
      ((b.retain_by_type_update fu).2 = none ↔ ∀ p ∈ b.updates, ∃ k, fu p = .ok k)) ∧
    (b.retain_by_type_remove fr
        = ({ b with removals := b.removals.filter fun p => okTrue (fr p) },
            b.removals.findSome? fun p => errOf (fr p)) ∧
      ((b.retain_by_type_remove fr).2 = none ↔ ∀ p ∈ b.removals, ∃ k, fr p = .ok k)) ∧
    (b.retain_by_type_psk fp
        = ({ b with psks := b.psks.filter fun p => okTrue (fp p) },
            b.psks.findSome? fun p => errOf (fp p)) ∧
      ((b.retain_by_type_psk fp).2 = none ↔ ∀ p ∈ b.psks, ∃ k, fp p = .ok k)) ∧
    (b.retain_by_type_reinit fi
        = ({ b with reinitializations :=
              b.reinitializations.filter fun p => okTrue (fi p) },
            b.reinitializations.findSome? fun p => errOf (fi p)) ∧
      ((b.retain_by_type_reinit fi).2 = none ↔
        ∀ p ∈ b.reinitializations, ∃ k, fi p = .ok k)) ∧
    (b.retain_by_type_external fe
        = ({ b with external_initializations :=
              b.external_initializations.filter fun p => okTrue (fe p) },
            b.external_initializations.findSome? fun p => errOf (fe p)) ∧
      ((b.retain_by_type_external fe).2 = none ↔
        ∀ p ∈ b.external_initializations, ∃ k, fe p = .ok k)) ∧
    (b.retain_by_type_gce fg
        = ({ b with group_context_extensions :=
              b.group_context_extensions.filter fun p => okTrue (fg p) },
            b.group_context_extensions.findSome? fun p => errOf (fg p)) ∧
      ((b.retain_by_type_gce fg).2 = none ↔
        ∀ p ∈ b.group_context_extensions, ∃ k, fg p = .ok k)) := by
  refine ⟨⟨?_, ?_⟩, ⟨?_, ?_⟩, ⟨?_, ?_⟩, ⟨?_, ?_⟩, ⟨?_, ?_⟩, ⟨?_, ?_⟩, ⟨?_, ?_⟩⟩
  · simp [ProposalBundle.retain_by_type_add, retainLoop_spec]
  · simp only [ProposalBundle.retain_by_type_add, retainLoop_spec]
    exact findSome_errOf_none_iff fa b.additions
  · simp [ProposalBundle.retain_by_type_update, retainLoop_spec]
  · simp only [ProposalBundle.retain_by_type_update, retainLoop_spec]
    exact findSome_errOf_none_iff fu b.updates
  · simp [ProposalBundle.retain_by_type_remove, retainLoop_spec]
  · simp only [ProposalBundle.retain_by_type_remove, retainLoop_spec]
    exact findSome_errOf_none_iff fr b.removals
  · simp [ProposalBundle.retain_by_type_psk, retainLoop_spec]
  · simp only [ProposalBundle.retain_by_type_psk, retainLoop_spec]
    exact findSome_errOf_none_iff fp b.psks
  · simp [ProposalBundle.retain_by_type_reinit, retainLoop_spec]
  · simp only [ProposalBundle.retain_by_type_reinit, retainLoop_spec]
    exact findSome_errOf_none_iff fi b.reinitializations
  · simp [ProposalBundle.retain_by_type_external, retainLoop_spec]
  · simp only [ProposalBundle.retain_by_type_external, retainLoop_spec]
    exact findSome_errOf_none_iff fe b.external_initializations
  · simp [ProposalBundle.retain_by_type_gce, retainLoop_spec]
  · simp only [ProposalBundle.retain_by_type_gce, retainLoop_spec]
    exact findSome_errOf_none_iff fg b.group_context_extensions

end MlsRs

namespace MlsRs

/-- C3, evaluated at the failing input: `SimpleProposalFilter::filter`, with
a user function that rejects every proposal, applied to a bundle whose only
proposal is a by-value Add, returns Ok with the by-value proposal silently
removed instead of returning the error — contradicting the `ProposalFilter`
trait documentation, which requires an error when a by-value proposal is
invalid. -/
theorem simple_filter_silently_drops_by_value :
    (∀ p ∈ byValueAddBundle.into_proposals, p.source = ProposalSource.ByValue) ∧
    byValueAddBundle.length = 1 ∧
    simpleProposalFilter_filter (E := Unit) ⟨1⟩ (fun _ _ => Except.error ())
      byValueAddBundle = Except.ok ProposalBundle.default :=
  ⟨by decide, by decide, rfl⟩

end MlsRs

namespace MlsCore

/-- C4: `CipherSuite::all` yields exactly the seven RFC-defined values, with
raw u16 values 1 through 7 in increasing order, equal to the seven named
constants; and any u16 value can be made a custom `CipherSuite` through
`new` or `From<u16>` without error, preserving its raw value. -/
theorem cipher_suite_seven_rfc_values :
    CipherSuite.all = [CipherSuite.CURVE25519_AES128, CipherSuite.P256_AES128,
      CipherSuite.CURVE25519_CHACHA, CipherSuite.CURVE448_AES256,
      CipherSuite.P521_AES256, CipherSuite.CURVE448_CHACHA,
      CipherSuite.P384_AES256] ∧
    CipherSuite.all.map CipherSuite.raw_value = [1, 2, 3, 4, 5, 6, 7] ∧
    List.Chain' (fun a b => a < b) (CipherSuite.all.map CipherSuite.raw_value) ∧
    (∀ v : Nat, v < 65536 →
      (CipherSuite.new v).raw_value = v ∧ (CipherSuite.fromU16 v).raw_value = v ∧
        CipherSuite.fromU16 v = CipherSuite.new v) :=
  ⟨by decide, by decide,
    by
      have h : CipherSuite.all.map CipherSuite.raw_value = [1, 2, 3, 4, 5, 6, 7] := by decide
      rw [h]
      norm_num [List.chain'_cons, List.chain'_singleton],
    fun v _ => ⟨rfl, rfl, rfl⟩⟩

/-- Witness for C4, at the custom u16 value 999. -/
theorem cipher_suite_seven_rfc_values_witness :
    (CipherSuite.new 999).raw_value = 999 ∧ (CipherSuite.fromU16 999).raw_value = 999 ∧
      CipherSuite.fromU16 999 = CipherSuite.new 999 :=
  cipher_suite_seven_rfc_values.2.2.2 999 (by decide)

end MlsCore

namespace MlsRsProviderWeb

/-- C7: a state storage constructed without explicit configuration has a max
epoch retention of 3, the default number of prior epochs retained. -/
theorem web_storage_default_retention :
    WebLocalStateStorage.new.max_epoch_retention = 3 ∧
      DEFAULT_EPOCH_RETENTION_LIMIT = 3 :=
  ⟨rfl, rfl⟩

end MlsRsProviderWeb

namespace SqliteProvider

/-- C6: inserting a key package under an id that already holds an entry
returns an error, and a subsequent get with that id still returns the
previously stored entry unchanged. -/
theorem key_package_duplicate_insert_errors (table : KeyPackageTable) (id : List Nat)
    (d d' : KeyPackageData) (h : SqLiteKeyPackageStore.get table id = some d) :
    SqLiteKeyPackageStore.insert table id d'
      = Except.error SqLiteDataStorageError.SqlEngineError ∧
    SqLiteKeyPackageStore.get table id = some d := by
  refine ⟨?_, h⟩
  obtain ⟨row, hfind, hrow⟩ := Option.map_eq_some'.mp h
  have hmem := List.mem_of_find?_eq_some hfind
  have hpred := List.find?_some hfind
  unfold SqLiteKeyPackageStore.insert
  rw [if_pos (List.any_eq_true.mpr ⟨row, hmem, hpred⟩)]

/-- Witness for C6, at a table holding one entry under id `[1]`. -/
theorem key_package_duplicate_insert_errors_witness :
    SqLiteKeyPackageStore.insert oneRowTable [1] ⟨8⟩
      = Except.error SqLiteDataStorageError.SqlEngineError ∧
    SqLiteKeyPackageStore.get oneRowTable [1] = some ⟨7⟩ :=
  key_package_duplicate_insert_errors oneRowTable [1] ⟨7⟩ ⟨8⟩ (by decide)

end SqliteProvider

namespace MlsLegacy

/-- C5: `Proposal::to_reference` returns the hash reference computed over
the TLS-serialized bytes of the proposal under the cipher suite, truncated
to 16 bytes, wrapped in `ProposalRef`; the result depends only on the
serialized bytes, so two proposals with identical serializations receive
the same `ProposalRef`, and every reference produced holds at most 16
bytes. -/
theorem to_reference_hash_truncated
    (hash : MlsCore.CipherSuite → List Nat → List Nat)
    (ser : Proposal → Except GroupError (List Nat)) (p q : Proposal)
    (cs : MlsCore.CipherSuite) (bytes : List Nat) :
    (ser p = Except.ok bytes →
      Proposal.to_reference hash ser p cs = Except.ok ⟨(hash cs bytes).take 16⟩) ∧
    (ser p = ser q →
      Proposal.to_reference hash ser p cs = Proposal.to_reference hash ser q cs) ∧
    (∀ r, Proposal.to_reference hash ser p cs = Except.ok r → r.ref.length ≤ 16) := by
  refine ⟨fun h => ?_, fun h => ?_, fun r h => ?_⟩
  · simp [Proposal.to_reference, h, HashReference.from_value, Except.map]
  · simp [Proposal.to_reference, h]
  · unfold Proposal.to_reference at h
    cases hs : ser p with
    | ok bs =>
      rw [hs] at h
      simp [Except.map] at h
      simp [← h, HashReference.from_value]
    | error e =>
      rw [hs] at h
      simp [Except.map] at h

/-- Witness for C5, with the padding hash and the constant serializer. -/
theorem to_reference_hash_truncated_witness :
    Proposal.to_reference padHash constSer (Proposal.remove ⟨⟨0⟩⟩) ⟨1⟩
      = Except.ok ⟨(padHash ⟨1⟩ [5]).take 16⟩ ∧
    Proposal.to_reference padHash constSer (Proposal.remove ⟨⟨0⟩⟩) ⟨1⟩
      = Proposal.to_reference padHash constSer (Proposal.add ⟨⟨1⟩⟩) ⟨1⟩ ∧
    (⟨(padHash ⟨1⟩ [5]).take 16⟩ : ProposalRef).ref.length ≤ 16 :=
  ⟨(to_reference_hash_truncated padHash constSer (Proposal.remove ⟨⟨0⟩⟩)
      (Proposal.add ⟨⟨1⟩⟩) ⟨1⟩ [5]).1 rfl,
   (to_reference_hash_truncated padHash constSer (Proposal.remove ⟨⟨0⟩⟩)
      (Proposal.add ⟨⟨1⟩⟩) ⟨1⟩ [5]).2.1 rfl,
   (to_reference_hash_truncated padHash constSer (Proposal.remove ⟨⟨0⟩⟩)
      (Proposal.add ⟨⟨1⟩⟩) ⟨1⟩ [5]).2.2 ⟨(padHash ⟨1⟩ [5]).take 16⟩
     ((to_reference_hash_truncated padHash constSer (Proposal.remove ⟨⟨0⟩⟩)
        (Proposal.add ⟨⟨1⟩⟩) ⟨1⟩ [5]).1 rfl)⟩

end MlsLegacy
